import Mathlib

/-!
Verification of the inventory / reservation subsystem of `src/app.py`
(a FastAPI + SQLAlchemy database service).

Embedding conventions:
* a table is an association list of rows (the `inventory` table keyed by the
  `sku` column, the `inventory_reservations` table keyed by the `id` column,
  the `orders` table keyed by the `id` column);
* a SQL `SELECT ... WHERE key = k` returning the first row is a lookup
  function; `UPDATE ... WHERE key = k` maps over all rows of the table,
  rewriting the matching ones (a no-op when no row matches, exactly as SQL);
* one request handler is a pure function `... → Store → Except ApiErr Store`:
  an `Except.error` result is a rolled-back transaction (every handler that
  mutates runs inside `with db.begin()` and every failure path raises, so the
  caller keeps the pre-call state unchanged);
* Python ints are `Int`; `qty` in a reservation line is the value after the
  source's `int(it.get("qty"))` coercion; JSON / float column values of the
  order rows are never computed with, only stored and copied, so they are
  modelled as opaque atoms.
-/

namespace AppDb

/-- Stock-keeping unit identifier (the `inventory.sku` column). -/
abbrev Sku := String

/-- One reservation line: a dict with keys `sku` and `qty` in the source. -/
structure Line where
  sku : Sku
  qty : Int
deriving DecidableEq, Repr

/-- A row of the `inventory_reservations` table (also the parsed
`InventoryReservationIn` payload: the two have identical fields). -/
structure ReservationRec where
  id : String
  orderId : String
  items : List Line
  status : String
deriving DecidableEq, Repr

/-- The two tables the reservation subsystem touches. -/
structure Store where
  inventory : List (Sku × Int)
  reservations : List ReservationRec
deriving DecidableEq, Repr

/-- Error outcomes surfaced by the handlers (HTTP status in the source):
409 for the two validation conflicts, 404 for missing rows, 500 for a
`SQLAlchemyError` (rolled back) and for an uncaught Python `AttributeError`,
422 for a request body rejected by pydantic validation. -/
inductive ApiErr where
  | skuNotFound : Sku → ApiErr
  | insufficientStock : Sku → ApiErr
  | reservationNotFound : ApiErr
  | orderNotFound : ApiErr
  | storageFailure : ApiErr
  | attributeError : ApiErr
  | validationError : ApiErr
deriving DecidableEq, Repr

/-- `SELECT quantity FROM inventory WHERE sku = k` (first matching row). -/
def lookupA : List (Sku × Int) → Sku → Option Int
  | [], _ => none
  | e :: t, k => if e.1 = k then some e.2 else lookupA t k

/-- `SELECT * FROM inventory_reservations WHERE id = rid` (first matching row). -/
def findRes : List ReservationRec → String → Option ReservationRec
  | [], _ => none
  | r :: t, rid => if r.id = rid then some r else findRes t rid

/-- Rewrite every quantity with a key-dependent function (reasoning helper). -/
def mapVals (f : Sku → Int → Int) (inv : List (Sku × Int)) : List (Sku × Int) :=
  inv.map fun e => (e.1, f e.1 e.2)

/-- `UPDATE inventory SET quantity = quantity + d WHERE sku = k`: rewrites the
matching rows relative to their current stored value, a no-op on the rest
(and on an absent key, exactly like the SQL statement). -/
def adjustQty (inv : List (Sku × Int)) (k : Sku) (d : Int) : List (Sku × Int) :=
  inv.map fun e => if e.1 = k then (e.1, e.2 + d) else e

/-- `UPDATE inventory SET quantity = q WHERE sku = k`. -/
def setQty (inv : List (Sku × Int)) (k : Sku) (q : Int) : List (Sku × Int) :=
  inv.map fun e => if e.1 = k then (e.1, q) else e

/-- Total qty carried by the lines of `items` whose sku is `k`
(reasoning helper). -/
def sumQty (items : List Line) (k : Sku) : Int :=
  match items with
  | [] => 0
  | l :: t => (if l.sku = k then l.qty else 0) + sumQty t k

/-- Step 1 of `create_reservation` (src/app.py lines 292-301): loop over the
payload's items in order, lock and read each SKU row; 409 `SKU not found` if
absent, 409 `Insufficient stock` if `current_qty < qty`.  Pure reads: every
line is checked against the same pre-call inventory, no mutation yet. -/
def validateItems : List Line → List (Sku × Int) → Except ApiErr Unit
  | [], _ => Except.ok ()
  | l :: t, inv =>
    match lookupA inv l.sku with
    | none => Except.error (ApiErr.skuNotFound l.sku)
    | some q =>
      if q < l.qty then Except.error (ApiErr.insufficientStock l.sku)
      else validateItems t inv

/-- Step 2 of `create_reservation` (lines 303-311): for every item in order,
`UPDATE inventory SET quantity = quantity - qty WHERE sku = sku`. -/
def decItems : List Line → List (Sku × Int) → List (Sku × Int)
  | [], inv => inv
  | l :: t, inv => decItems t (adjustQty inv l.sku (-l.qty))

/-- Per-line stock restore used by release and by delete (lines 346-358 and
385-396): lock the SKU row; if absent, `INSERT (sku, qty)` (recovery path);
otherwise `UPDATE ... SET quantity = quantity + qty`. -/
def restoreLine (inv : List (Sku × Int)) (l : Line) : List (Sku × Int) :=
  match lookupA inv l.sku with
  | none => inv ++ [(l.sku, l.qty)]
  | some _ => adjustQty inv l.sku l.qty

/-- Restore a whole item list, in list order. -/
def restoreItems (items : List Line) (inv : List (Sku × Int)) : List (Sku × Int) :=
  items.foldl restoreLine inv

/-- POST /inventory/reserve (`create_reservation`, lines 288-321): inside one
transaction, validate every payload line (step 1), decrement every line
(step 2), then `INSERT` the payload as a reservation row.  The insert hits the
primary-key constraint when the id is already taken; that `SQLAlchemyError`
rolls the whole transaction back, so the model returns the error with no
state produced. -/
def createReservation (p : ReservationRec) (s : Store) : Except ApiErr Store :=
  match validateItems p.items s.inventory with
  | Except.error e => Except.error e
  | Except.ok _ =>
    if (findRes s.reservations p.id).isSome then Except.error ApiErr.storageFailure
    else Except.ok ⟨decItems p.items s.inventory, s.reservations ++ [p]⟩

/-- PUT /inventory/reserve/rid (`update_reservation`, lines 331-368): lock the
reservation row, 404 if absent; restore stock from the *stored* record's items
exactly when the freshly-read previous status is `reserved` and the payload's
status is `released`; finally overwrite the whole row (every column, the `id`
column included) with the payload.  Writing an `id` that differs from `rid`
and already names another row violates the primary-key constraint: the
`SQLAlchemyError` rolls the transaction back. -/
def updateReservation (rid : String) (p : ReservationRec) (s : Store) :
    Except ApiErr Store :=
  match findRes s.reservations rid with
  | none => Except.error ApiErr.reservationNotFound
  | some ex =>
    if p.id ≠ rid ∧ (findRes s.reservations p.id).isSome then
      Except.error ApiErr.storageFailure
    else
      Except.ok ⟨(if ex.status = "reserved" ∧ p.status = "released"
                  then restoreItems ex.items s.inventory else s.inventory),
                 s.reservations.map fun r => if r.id = rid then p else r⟩

/-- DELETE /inventory/reserve/rid (`delete_reservation`, lines 375-404): if
the row is absent, return with no effect (idempotent delete); otherwise
restore stock from the stored items exactly when the stored status is
`reserved`, then delete the row. -/
def deleteReservation (rid : String) (s : Store) : Except ApiErr Store :=
  match findRes s.reservations rid with
  | none => Except.ok s
  | some ex =>
    Except.ok ⟨(if ex.status = "reserved" then restoreItems ex.items s.inventory
                else s.inventory),
               s.reservations.filter fun r => r.id ≠ rid⟩

/-- DELETE /inventory/sku (`delete_inventory`, lines 279-283): unconditional
`DELETE FROM inventory WHERE sku = k`, always 204. -/
def deleteInventory (k : Sku) (s : Store) : Store :=
  { s with inventory := s.inventory.filter fun e => e.1 ≠ k }

/-- Dynamic value of a Python attribute of a pydantic model instance. -/
inductive Dyn where
  | str : String → Dyn
  | int : Int → Dyn
  | list : List Line → Dyn
deriving DecidableEq, Repr

/-- The pydantic input model of the inventory endpoints, with exactly the
fields declared at src/app.py lines 102-106: `id`, `orderId`, `items`,
`status` — no `sku` field and no `quantity` field. -/
structure InventoryIn where
  id : String
  orderId : String
  items : List Line
  status : String
deriving DecidableEq, Repr

/-- Python attribute access on an `InventoryIn` instance: only the four
declared fields resolve; `payload.sku` and `payload.quantity` raise
`AttributeError`. -/
def InventoryIn.getAttr (p : InventoryIn) (name : String) : Option Dyn :=
  if name = "id" then some (Dyn.str p.id)
  else if name = "orderId" then some (Dyn.str p.orderId)
  else if name = "items" then some (Dyn.list p.items)
  else if name = "status" then some (Dyn.str p.status)
  else none

/-- Columns of the `inventory` table (lines 40-45). -/
def inventoryColumns : List String := ["sku", "quantity"]

/-- Keys of `payload.dict()` for an `InventoryIn` payload. -/
def inventoryInDictKeys : List String := ["id", "orderId", "items", "status"]

/-- POST /inventory (`create_inventory`, lines 246-259).  The handler's first
expression evaluates `payload.sku`; if it resolved, the existing-row branch
would read `payload.quantity` and the new-row branch would run
`INSERT ... VALUES(**payload.dict())`, whose keys must all be inventory
columns. -/
def createInventory (p : InventoryIn) (s : Store) : Except ApiErr Store :=
  match p.getAttr "sku" with
  | some (Dyn.str k) =>
    match lookupA s.inventory k with
    | some _ =>
      match p.getAttr "quantity" with
      | some (Dyn.int q) => Except.ok { s with inventory := setQty s.inventory k q }
      | _ => Except.error ApiErr.attributeError
    | none =>
      -- insert branch; the guard is decidably false, so it is never reached
      if inventoryInDictKeys.all (fun c => inventoryColumns.contains c) then
        Except.ok s
      else Except.error ApiErr.storageFailure
  | _ => Except.error ApiErr.attributeError

/-- PUT /inventory/sku (`update_inventory`, lines 273-277): a single
`UPDATE inventory ... VALUES(**payload.dict())`.  SQLAlchemy rejects the
statement (unconsumed column names) unless every key of `payload.dict()` is a
column of the `inventory` table. -/
def updateInventory (k : Sku) (p : InventoryIn) (s : Store) : Except ApiErr Store :=
  -- the guard is decidably false, so the success branch is never reached
  if inventoryInDictKeys.all (fun c => inventoryColumns.contains c) then
    Except.ok s
  else Except.error ApiErr.storageFailure

/-- One committed external operation against the reservation subsystem. -/
inductive Op where
  | createRes : ReservationRec → Op
  | updateRes : String → ReservationRec → Op
  | deleteRes : String → Op
  | createInv : InventoryIn → Op
  | updateInv : Sku → InventoryIn → Op
  | deleteInv : Sku → Op
deriving DecidableEq, Repr

/-- Commit point of one request: a failing handler rolled its transaction
back, so the pre-call state survives; a successful one installs its result. -/
def commit (r : Except ApiErr Store) (s : Store) : Store :=
  match r with
  | Except.ok s' => s'
  | Except.error _ => s

/-- The committed state after one operation. -/
def applyOp (s : Store) (o : Op) : Store :=
  match o with
  | Op.createRes p => commit (createReservation p s) s
  | Op.updateRes rid p => commit (updateReservation rid p s) s
  | Op.deleteRes rid => commit (deleteReservation rid s) s
  | Op.createInv p => commit (createInventory p s) s
  | Op.updateInv k p => commit (updateInventory k p s) s
  | Op.deleteInv k => deleteInventory k s

/-- The committed state after a sequence of operations. -/
def run (s : Store) (ops : List Op) : Store := ops.foldl applyOp s

/-- The `sku` column is a primary key: distinct keys. -/
def keysNodup (inv : List (Sku × Int)) : Prop := (inv.map Prod.fst).Nodup

/-- Well-formed committed state: every stored quantity is nonnegative, the
inventory keys are distinct, and every stored reservation line carries a
nonnegative qty. -/
def StoreOK (s : Store) : Prop :=
  (∀ e ∈ s.inventory, 0 ≤ e.2) ∧ keysNodup s.inventory ∧
  (∀ r ∈ s.reservations, ∀ l ∈ r.items, 0 ≤ l.qty)

/-- Payload discipline under which the nonnegativity invariant is preserved:
a reservation create lists each SKU at most once and only nonnegative qtys
(the spec's data model already requires positive qtys); a reservation update
carries only nonnegative qtys.  Every other operation is unrestricted. -/
def goodOp : Op → Prop
  | Op.createRes p => (p.items.map Line.sku).Nodup ∧ ∀ l ∈ p.items, 0 ≤ l.qty
  | Op.updateRes _ p => ∀ l ∈ p.items, 0 ≤ l.qty
  | _ => True

/-- Opaque JSON / numeric column value of an order row: the order handlers
only store and copy these, never inspect them. -/
structure RawVal where
  raw : String
deriving DecidableEq, Repr

/-- A row of the `orders` table (src/app.py lines 25-37).  Nullable columns
are `Option`-typed. -/
structure OrderRow where
  id : String
  userId : Option String
  address : Option RawVal
  items : RawVal
  total : RawVal
  currency : Option String
  status : String
  refund_attempt : Option RawVal
  payment_refund_status : Option String
deriving DecidableEq, Repr

/-- A request body for the `OrderIn` pydantic model (lines 88-97), tracking
for every field whether the key is present in the incoming JSON (the outer
`Option`); for a nullable field the inner `Option` is the transported value.
`payload.dict(exclude_unset=True)` keeps exactly the present keys. -/
structure OrderReq where
  id : Option String
  userId : Option (Option String)
  address : Option (Option RawVal)
  items : Option RawVal
  total : Option RawVal
  currency : Option (Option String)
  status : Option String
  refund_attempt : Option (Option RawVal)
  payment_refund_status : Option (Option String)
deriving DecidableEq, Repr

/-- Pydantic validation of `OrderIn`: the fields without a default —
`id`, `items`, `total`, `status` — must be present; every other field is
optional.  FastAPI rejects the request (422) before the handler runs when
this fails. -/
def parseOk (r : OrderReq) : Bool :=
  r.id.isSome && r.items.isSome && r.total.isSome && r.status.isSome

/-- The dict merge `merged = ⟨**existing_obj, **incoming⟩` of `update_order`
(line 204): a key present in the incoming payload overrides the stored value,
a key absent from the payload keeps the stored value. -/
def mergeOrder (ex : OrderRow) (r : OrderReq) : OrderRow :=
  { id := r.id.getD ex.id
    userId := r.userId.getD ex.userId
    address := r.address.getD ex.address
    items := r.items.getD ex.items
    total := r.total.getD ex.total
    currency := r.currency.getD ex.currency
    status := r.status.getD ex.status
    refund_attempt := r.refund_attempt.getD ex.refund_attempt
    payment_refund_status := r.payment_refund_status.getD ex.payment_refund_status }

/-- `SELECT * FROM orders WHERE id = oid` (first matching row). -/
def findOrder : List OrderRow → String → Option OrderRow
  | [], _ => none
  | o :: t, oid => if o.id = oid then some o else findOrder t oid

/-- PUT /orders/oid (`update_order`, lines 183-210), pydantic validation
included: parse the body (422 on a missing required field), read the stored
row (404 if absent), merge, then `UPDATE orders ... VALUES(**merged)` — which
also writes the `id` column, so a merged id that differs from `oid` and
already names another row violates the primary key and rolls back. -/
def updateOrder (oid : String) (r : OrderReq) (db : List OrderRow) :
    Except ApiErr (List OrderRow) :=
  if parseOk r then
    match findOrder db oid with
    | none => Except.error ApiErr.orderNotFound
    | some ex =>
      let m := mergeOrder ex r
      if m.id ≠ oid ∧ (findOrder db m.id).isSome then Except.error ApiErr.storageFailure
      else Except.ok (db.map fun o => if o.id = oid then m else o)
  else Except.error ApiErr.validationError

/-! ### Lemmas about the inventory table -/

theorem lookupA_mapVals (f : Sku → Int → Int) (inv : List (Sku × Int)) (k : Sku) :
    lookupA (mapVals f inv) k = (lookupA inv k).map (f k) := by
  induction inv with
  | nil => rfl
  | cons e t ih =>
    by_cases h : e.1 = k
    · simp [mapVals, lookupA, h]
    · simp only [mapVals, List.map_cons, lookupA, if_neg h]
      exact ih

theorem keys_mapVals (f : Sku → Int → Int) (inv : List (Sku × Int)) :
    (mapVals f inv).map Prod.fst = inv.map Prod.fst := by
  induction inv with
  | nil => rfl
  | cons e t ih => simp only [mapVals, List.map_cons] at ih ⊢; rw [ih]

theorem mem_mapVals {f : Sku → Int → Int} {inv : List (Sku × Int)} {e : Sku × Int}
    (h : e ∈ mapVals f inv) : ∃ e0 ∈ inv, e = (e0.1, f e0.1 e0.2) := by
  rcases List.mem_map.mp h with ⟨e0, h0, he⟩
  exact ⟨e0, h0, he.symm⟩

theorem adjustQty_eq_mapVals (inv : List (Sku × Int)) (k : Sku) (d : Int) :
    adjustQty inv k d = mapVals (fun j q => if j = k then q + d else q) inv := by
  unfold adjustQty mapVals
  congr 1
  funext e
  by_cases h : e.1 = k <;> simp [h]

theorem mapVals_mapVals (f g : Sku → Int → Int) (inv : List (Sku × Int)) :
    mapVals f (mapVals g inv) = mapVals (fun k q => f k (g k q)) inv := by
  unfold mapVals
  rw [List.map_map]
  rfl

theorem sumQty_cons (l : Line) (t : List Line) (k : Sku) :
    sumQty (l :: t) k = (if l.sku = k then l.qty else 0) + sumQty t k := rfl

theorem decItems_eq_mapVals (items : List Line) (inv : List (Sku × Int)) :
    decItems items inv = mapVals (fun k q => q - sumQty items k) inv := by
  induction items generalizing inv with
  | nil => simp [decItems, sumQty, mapVals]
  | cons l t ih =>
    rw [decItems, adjustQty_eq_mapVals, ih, mapVals_mapVals]
    unfold mapVals
    congr 1
    funext e
    simp only [sumQty_cons]
    rcases eq_or_ne e.1 l.sku with h | h
    · rw [if_pos h, if_pos h.symm, Prod.mk.injEq]
      exact ⟨rfl, by ring⟩
    · rw [if_neg h, if_neg h.symm, Prod.mk.injEq]
      exact ⟨rfl, by ring⟩

theorem sumQty_eq_zero {items : List Line} {k : Sku}
    (h : ∀ l ∈ items, l.sku ≠ k) : sumQty items k = 0 := by
  induction items with
  | nil => rfl
  | cons a t ih =>
    rw [sumQty_cons, if_neg (h a (by simp)), zero_add]
    exact ih fun l hl => h l (List.mem_cons_of_mem a hl)

theorem sumQty_of_nodup {items : List Line} {l : Line}
    (hnd : (items.map Line.sku).Nodup) (hl : l ∈ items) :
    sumQty items l.sku = l.qty := by
  induction items with
  | nil => cases hl
  | cons a t ih =>
    rw [List.map_cons, List.nodup_cons] at hnd
    rcases List.mem_cons.mp hl with rfl | hm
    · rw [sumQty_cons, if_pos rfl]
      have : ∀ x ∈ t, x.sku ≠ l.sku := by
        intro x hx he
        exact hnd.1 (he ▸ List.mem_map_of_mem Line.sku hx)
      rw [sumQty_eq_zero this, add_zero]
    · have hne : a.sku ≠ l.sku := by
        intro he
        exact hnd.1 (he ▸ List.mem_map_of_mem Line.sku hm)
      rw [sumQty_cons, if_neg hne, zero_add]
      exact ih hnd.2 hm

theorem lookupA_eq_none {inv : List (Sku × Int)} {k : Sku}
    (h : lookupA inv k = none) : k ∉ inv.map Prod.fst := by
  induction inv with
  | nil => simp
  | cons e t ih =>
    rw [lookupA] at h
    by_cases he : e.1 = k
    · rw [if_pos he] at h; cases h
    · rw [if_neg he] at h
      simp only [List.map_cons, List.mem_cons]
      rintro (rfl | hm)
      · exact he rfl
      · exact ih h hm

theorem lookupA_isSome_of_mem {inv : List (Sku × Int)} {e : Sku × Int}
    (h : e ∈ inv) : (lookupA inv e.1).isSome := by
  induction inv with
  | nil => cases h
  | cons a t ih =>
    rw [lookupA]
    by_cases ha : a.1 = e.1
    · rw [if_pos ha]; rfl
    · rw [if_neg ha]
      rcases List.mem_cons.mp h with rfl | hm
      · exact absurd rfl ha
      · exact ih hm

theorem lookupA_of_mem_nodup {inv : List (Sku × Int)} {e : Sku × Int}
    (hnd : (inv.map Prod.fst).Nodup) (h : e ∈ inv) : lookupA inv e.1 = some e.2 := by
  induction inv with
  | nil => cases h
  | cons a t ih =>
    rw [List.map_cons, List.nodup_cons] at hnd
    rcases List.mem_cons.mp h with rfl | hm
    · rw [lookupA, if_pos rfl]
    · have ha : a.1 ≠ e.1 := by
        intro he
        exact hnd.1 (he ▸ List.mem_map_of_mem Prod.fst hm)
      rw [lookupA, if_neg ha]
      exact ih hnd.2 hm

/-! ### Lemmas about restore and validation -/

theorem restoreLine_of_some {inv : List (Sku × Int)} {l : Line} {q : Int}
    (h : lookupA inv l.sku = some q) :
    restoreLine inv l = adjustQty inv l.sku l.qty := by
  rw [restoreLine, h]

theorem restoreLine_of_none {inv : List (Sku × Int)} {l : Line}
    (h : lookupA inv l.sku = none) :
    restoreLine inv l = inv ++ [(l.sku, l.qty)] := by
  rw [restoreLine, h]

theorem restoreItems_cons (l : Line) (t : List Line) (inv : List (Sku × Int)) :
    restoreItems (l :: t) inv = restoreItems t (restoreLine inv l) := rfl

theorem restoreItems_eq_mapVals (items : List Line) (inv : List (Sku × Int))
    (h : ∀ l ∈ items, (lookupA inv l.sku).isSome) :
    restoreItems items inv = mapVals (fun k q => q + sumQty items k) inv := by
  induction items generalizing inv with
  | nil => simp [restoreItems, sumQty, mapVals]
  | cons l t ih =>
    obtain ⟨q, hq⟩ := Option.isSome_iff_exists.mp (h l (List.mem_cons_self l t))
    have hpres : ∀ x ∈ t,
        (lookupA (mapVals (fun j q' => if j = l.sku then q' + l.qty else q') inv) x.sku).isSome := by
      intro x hx
      rw [lookupA_mapVals]
      cases hy : lookupA inv x.sku with
      | none => have := h x (List.mem_cons_of_mem l hx); rw [hy] at this; cases this
      | some _ => rfl
    rw [restoreItems_cons, restoreLine_of_some hq, adjustQty_eq_mapVals, ih _ hpres,
      mapVals_mapVals]
    unfold mapVals
    congr 1
    funext e
    simp only [sumQty_cons]
    rcases eq_or_ne e.1 l.sku with he | he
    · rw [if_pos he, if_pos he.symm, Prod.mk.injEq]
      exact ⟨rfl, by ring⟩
    · rw [if_neg he, if_neg he.symm, Prod.mk.injEq]
      exact ⟨rfl, by ring⟩

theorem restoreLine_pres {inv : List (Sku × Int)} {l : Line}
    (hq : 0 ≤ l.qty) (hinv : ∀ e ∈ inv, 0 ≤ e.2) (hnd : keysNodup inv) :
    (∀ e ∈ restoreLine inv l, 0 ≤ e.2) ∧ keysNodup (restoreLine inv l) := by
  cases hx : lookupA inv l.sku with
  | none =>
    rw [restoreLine_of_none hx]
    constructor
    · intro e he
      rcases List.mem_append.mp he with hm | hm
      · exact hinv e hm
      · rw [List.mem_singleton] at hm
        rw [hm]
        exact hq
    · unfold keysNodup at hnd ⊢
      rw [List.map_append]
      simp only [List.map_cons, List.map_nil, List.nodup_append, List.nodup_cons,
        List.not_mem_nil, not_false_iff, List.nodup_nil, true_and, and_true]
      constructor
      · exact hnd
      · intro a ha hb
        rw [List.mem_singleton] at hb
        subst hb
        exact lookupA_eq_none hx ha
  | some q0 =>
    rw [restoreLine_of_some hx, adjustQty_eq_mapVals]
    constructor
    · intro e he
      rcases mem_mapVals he with ⟨e0, h0, he0⟩
      rw [he0]
      by_cases hk : e0.1 = l.sku
      · simp only [if_pos hk]
        exact add_nonneg (hinv e0 h0) hq
      · simp only [if_neg hk]
        exact hinv e0 h0
    · unfold keysNodup at hnd ⊢
      rw [keys_mapVals]
      exact hnd

theorem restoreItems_pres {items : List Line} {inv : List (Sku × Int)}
    (hq : ∀ l ∈ items, 0 ≤ l.qty) (hinv : ∀ e ∈ inv, 0 ≤ e.2) (hnd : keysNodup inv) :
    (∀ e ∈ restoreItems items inv, 0 ≤ e.2) ∧ keysNodup (restoreItems items inv) := by
  induction items generalizing inv with
  | nil => exact ⟨hinv, hnd⟩
  | cons l t ih =>
    rw [restoreItems_cons]
    have hl := restoreLine_pres (hq l (List.mem_cons_self l t)) hinv hnd
    exact ih (fun x hx => hq x (List.mem_cons_of_mem l hx)) hl.1 hl.2

theorem validateItems_ok_mem {items : List Line} {inv : List (Sku × Int)}
    (h : validateItems items inv = Except.ok ()) :
    ∀ l ∈ items, ∃ q, lookupA inv l.sku = some q ∧ l.qty ≤ q := by
  induction items with
  | nil => intro l hl; cases hl
  | cons a t ih =>
    intro l hl
    rw [validateItems] at h
    cases hx : lookupA inv a.sku with
    | none => rw [hx] at h; cases h
    | some q =>
      rw [hx] at h
      dsimp only at h
      by_cases hlt : q < a.qty
      · rw [if_pos hlt] at h; cases h
      · rw [if_neg hlt] at h
        rcases List.mem_cons.mp hl with rfl | hm
        · exact ⟨q, hx, not_lt.mp hlt⟩
        · exact ih h l hm

theorem validateItems_ok_intro {items : List Line} {inv : List (Sku × Int)}
    (h : ∀ l ∈ items, ∃ q, lookupA inv l.sku = some q ∧ l.qty ≤ q) :
    validateItems items inv = Except.ok () := by
  induction items with
  | nil => rfl
  | cons a t ih =>
    obtain ⟨q, hq, hle⟩ := h a (List.mem_cons_self a t)
    rw [validateItems, hq]
    dsimp only
    rw [if_neg (not_lt.mpr hle)]
    exact ih fun l hl => h l (List.mem_cons_of_mem a hl)

theorem validateItems_error_mem {items : List Line} {inv : List (Sku × Int)} {e : ApiErr}
    (h : validateItems items inv = Except.error e) :
    ∃ l ∈ items, (e = ApiErr.skuNotFound l.sku ∧ lookupA inv l.sku = none) ∨
      ∃ q, e = ApiErr.insufficientStock l.sku ∧ lookupA inv l.sku = some q ∧ q < l.qty := by
  induction items with
  | nil => cases h
  | cons a t ih =>
    rw [validateItems] at h
    cases hx : lookupA inv a.sku with
    | none =>
      rw [hx] at h
      dsimp only at h
      exact ⟨a, List.mem_cons_self a t, Or.inl ⟨(Except.error.inj h).symm, hx⟩⟩
    | some q =>
      rw [hx] at h
      dsimp only at h
      by_cases hlt : q < a.qty
      · rw [if_pos hlt] at h
        exact ⟨a, List.mem_cons_self a t,
          Or.inr ⟨q, (Except.error.inj h).symm, hx, hlt⟩⟩
      · rw [if_neg hlt] at h
        obtain ⟨l, hl, hca⟩ := ih h
        exact ⟨l, List.mem_cons_of_mem a hl, hca⟩

/-! ### Inversion and introduction lemmas for the handlers -/

theorem findRes_mem {rs : List ReservationRec} {rid : String} {ex : ReservationRec}
    (h : findRes rs rid = some ex) : ex ∈ rs := by
  induction rs with
  | nil => cases h
  | cons r t ih =>
    rw [findRes] at h
    by_cases hr : r.id = rid
    · rw [if_pos hr] at h
      exact (Option.some.inj h) ▸ List.mem_cons_self r t
    · rw [if_neg hr] at h
      exact List.mem_cons_of_mem r (ih h)

theorem createReservation_ok_elim {p : ReservationRec} {s s' : Store}
    (h : createReservation p s = Except.ok s') :
    validateItems p.items s.inventory = Except.ok () ∧
    findRes s.reservations p.id = none ∧
    s' = ⟨decItems p.items s.inventory, s.reservations ++ [p]⟩ := by
  unfold createReservation at h
  cases hv : validateItems p.items s.inventory with
  | error e => rw [hv] at h; cases h
  | ok u =>
    cases u
    rw [hv] at h
    dsimp only at h
    by_cases hf : (findRes s.reservations p.id).isSome
    · rw [if_pos hf] at h; cases h
    · rw [if_neg hf] at h
      exact ⟨rfl, Option.not_isSome_iff_eq_none.mp hf, (Except.ok.inj h).symm⟩

theorem createReservation_ok_intro {p : ReservationRec} {s : Store}
    (hv : validateItems p.items s.inventory = Except.ok ())
    (hf : findRes s.reservations p.id = none) :
    createReservation p s =
      Except.ok ⟨decItems p.items s.inventory, s.reservations ++ [p]⟩ := by
  unfold createReservation
  rw [hv, hf]
  rfl

theorem createReservation_error_elim {p : ReservationRec} {s : Store} {e : ApiErr}
    (h : createReservation p s = Except.error e) :
    (∃ l ∈ p.items,
        (e = ApiErr.skuNotFound l.sku ∧ lookupA s.inventory l.sku = none) ∨
        ∃ q, e = ApiErr.insufficientStock l.sku ∧
          lookupA s.inventory l.sku = some q ∧ q < l.qty) ∨
    (e = ApiErr.storageFailure ∧ validateItems p.items s.inventory = Except.ok () ∧
      (findRes s.reservations p.id).isSome) := by
  unfold createReservation at h
  cases hv : validateItems p.items s.inventory with
  | error e0 =>
    rw [hv] at h
    dsimp only at h
    have he : e0 = e := Except.error.inj h
    subst he
    exact Or.inl (validateItems_error_mem hv)
  | ok u =>
    cases u
    rw [hv] at h
    dsimp only at h
    by_cases hf : (findRes s.reservations p.id).isSome
    · rw [if_pos hf] at h
      exact Or.inr ⟨(Except.error.inj h).symm, rfl, hf⟩
    · rw [if_neg hf] at h; cases h

theorem updateReservation_ok_intro {rid : String} {p ex : ReservationRec} {s : Store}
    (hf : findRes s.reservations rid = some ex) (hid : p.id = rid) :
    updateReservation rid p s = Except.ok
      ⟨(if ex.status = "reserved" ∧ p.status = "released"
        then restoreItems ex.items s.inventory else s.inventory),
       s.reservations.map fun r => if r.id = rid then p else r⟩ := by
  unfold updateReservation
  rw [hf]
  dsimp only
  rw [if_neg fun hc => hc.1 hid]

theorem updateReservation_ok_elim {rid : String} {p : ReservationRec} {s s' : Store}
    (h : updateReservation rid p s = Except.ok s') :
    ∃ ex, findRes s.reservations rid = some ex ∧
      s' = ⟨(if ex.status = "reserved" ∧ p.status = "released"
             then restoreItems ex.items s.inventory else s.inventory),
            s.reservations.map fun r => if r.id = rid then p else r⟩ := by
  unfold updateReservation at h
  cases hf : findRes s.reservations rid with
  | none => rw [hf] at h; cases h
  | some ex =>
    rw [hf] at h
    dsimp only at h
    by_cases hg : p.id ≠ rid ∧ (findRes s.reservations p.id).isSome
    · rw [if_pos hg] at h; cases h
    · rw [if_neg hg] at h
      exact ⟨ex, rfl, (Except.ok.inj h).symm⟩

theorem deleteReservation_none {rid : String} {s : Store}
    (hf : findRes s.reservations rid = none) : deleteReservation rid s = Except.ok s := by
  unfold deleteReservation
  rw [hf]

theorem deleteReservation_some {rid : String} {s : Store} {ex : ReservationRec}
    (hf : findRes s.reservations rid = some ex) :
    deleteReservation rid s = Except.ok
      ⟨(if ex.status = "reserved" then restoreItems ex.items s.inventory
        else s.inventory),
       s.reservations.filter fun r => r.id ≠ rid⟩ := by
  unfold deleteReservation
  rw [hf]

theorem createInventory_fails (p : InventoryIn) (s : Store) :
    createInventory p s = Except.error ApiErr.attributeError := by
  unfold createInventory InventoryIn.getAttr
  rfl

theorem updateInventory_fails (k : Sku) (p : InventoryIn) (s : Store) :
    updateInventory k p s = Except.error ApiErr.storageFailure := by
  unfold updateInventory
  rfl

/-! ### Preservation of the committed-state invariant -/

theorem applyOp_pres {s : Store} {o : Op} (hg : goodOp o) (hs : StoreOK s) :
    StoreOK (applyOp s o) := by
  obtain ⟨hinv, hnd, hres⟩ := hs
  cases o with
  | createRes p =>
    cases hc : createReservation p s with
    | error e =>
      simp only [applyOp, commit, hc]
      exact ⟨hinv, hnd, hres⟩
    | ok s' =>
      obtain ⟨hv, hf, hse⟩ := createReservation_ok_elim hc
      obtain ⟨hndItems, hqItems⟩ := hg
      subst hse
      simp only [applyOp, commit, hc]
      refine ⟨?_, ?_, ?_⟩
      · intro e he
        dsimp only at he
        rw [decItems_eq_mapVals] at he
        rcases mem_mapVals he with ⟨e0, h0, he0⟩
        rw [he0]
        by_cases hk : ∃ l ∈ p.items, l.sku = e0.1
        · obtain ⟨l, hl, hlk⟩ := hk
          have hsum : sumQty p.items e0.1 = l.qty := hlk ▸ sumQty_of_nodup hndItems hl
          obtain ⟨q, hq, hle⟩ := validateItems_ok_mem hv l hl
          have hlq : lookupA s.inventory e0.1 = some e0.2 := lookupA_of_mem_nodup hnd h0
          rw [← hlk, hq] at hlq
          have hqe : q = e0.2 := Option.some.inj hlq
          rw [hsum]
          omega
        · push_neg at hk
          rw [sumQty_eq_zero fun l hl => hk l hl]
          have := hinv e0 h0
          omega
      · unfold keysNodup
        rw [decItems_eq_mapVals, keys_mapVals]
        exact hnd
      · intro r hr
        rcases List.mem_append.mp hr with hm | hm
        · exact hres r hm
        · rw [List.mem_singleton] at hm
          subst hm
          exact hqItems
  | updateRes rid p =>
    cases hc : updateReservation rid p s with
    | error e =>
      simp only [applyOp, commit, hc]
      exact ⟨hinv, hnd, hres⟩
    | ok s' =>
      obtain ⟨ex, hf, hse⟩ := updateReservation_ok_elim hc
      subst hse
      simp only [applyOp, commit, hc]
      have hexq : ∀ l ∈ ex.items, 0 ≤ l.qty := hres ex (findRes_mem hf)
      refine ⟨?_, ?_, ?_⟩
      · by_cases hrel : ex.status = "reserved" ∧ p.status = "released"
        · rw [if_pos hrel]
          exact (restoreItems_pres hexq hinv hnd).1
        · rw [if_neg hrel]
          exact hinv
      · by_cases hrel : ex.status = "reserved" ∧ p.status = "released"
        · rw [if_pos hrel]
          exact (restoreItems_pres hexq hinv hnd).2
        · rw [if_neg hrel]
          exact hnd
      · intro r hr
        rcases List.mem_map.mp hr with ⟨r0, hr0, heq⟩
        by_cases hid : r0.id = rid
        · rw [if_pos hid] at heq
          subst heq
          exact hg
        · rw [if_neg hid] at heq
          subst heq
          exact hres r0 hr0
  | deleteRes rid =>
    cases hfx : findRes s.reservations rid with
    | none =>
      simp only [applyOp, commit, deleteReservation_none hfx]
      exact ⟨hinv, hnd, hres⟩
    | some ex =>
      simp only [applyOp, commit, deleteReservation_some hfx]
      have hexq : ∀ l ∈ ex.items, 0 ≤ l.qty := hres ex (findRes_mem hfx)
      refine ⟨?_, ?_, ?_⟩
      · by_cases hrel : ex.status = "reserved"
        · rw [if_pos hrel]
          exact (restoreItems_pres hexq hinv hnd).1
        · rw [if_neg hrel]
          exact hinv
      · by_cases hrel : ex.status = "reserved"
        · rw [if_pos hrel]
          exact (restoreItems_pres hexq hinv hnd).2
        · rw [if_neg hrel]
          exact hnd
      · intro r hr
        exact hres r (List.mem_of_mem_filter hr)
  | createInv p =>
    simp only [applyOp, commit, createInventory_fails]
    exact ⟨hinv, hnd, hres⟩
  | updateInv k p =>
    simp only [applyOp, commit, updateInventory_fails]
    exact ⟨hinv, hnd, hres⟩
  | deleteInv k =>
    refine ⟨?_, ?_, hres⟩
    · intro e he
      exact hinv e (List.mem_of_mem_filter he)
    · unfold keysNodup
      exact ((List.filter_sublist _).map Prod.fst).nodup hnd

theorem run_pres {ops : List Op} {s : Store} (hg : ∀ o ∈ ops, goodOp o)
    (hs : StoreOK s) : StoreOK (run s ops) := by
  induction ops generalizing s with
  | nil => exact hs
  | cons o t ih =>
    exact ih (fun x hx => hg x (List.mem_cons_of_mem o hx))
      (applyOp_pres (hg o (List.mem_cons_self o t)) hs)

/-- Decidable equality of handler results, so that concrete runs evaluate. -/
instance exceptDecEq {ε α : Type} [DecidableEq ε] [DecidableEq α] :
    DecidableEq (Except ε α)
  | Except.error e, Except.error f =>
    if h : e = f then Decidable.isTrue (by rw [h]) else Decidable.isFalse (by simp [h])
  | Except.error _, Except.ok _ => Decidable.isFalse (by simp)
  | Except.ok _, Except.error _ => Decidable.isFalse (by simp)
  | Except.ok a, Except.ok b =>
    if h : a = b then Decidable.isTrue (by rw [h]) else Decidable.isFalse (by simp [h])

instance goodOpDecidable (o : Op) : Decidable (goodOp o) := by
  cases o with
  | createRes p =>
    exact inferInstanceAs (Decidable ((p.items.map Line.sku).Nodup ∧ ∀ l ∈ p.items, 0 ≤ l.qty))
  | updateRes rid p => exact inferInstanceAs (Decidable (∀ l ∈ p.items, 0 ≤ l.qty))
  | deleteRes rid => exact inferInstanceAs (Decidable True)
  | createInv p => exact inferInstanceAs (Decidable True)
  | updateInv k p => exact inferInstanceAs (Decidable True)
  | deleteInv k => exact inferInstanceAs (Decidable True)

instance storeOKDecidable (s : Store) : Decidable (StoreOK s) :=
  inferInstanceAs (Decidable ((∀ e ∈ s.inventory, 0 ≤ e.2) ∧
    (s.inventory.map Prod.fst).Nodup ∧ ∀ r ∈ s.reservations, ∀ l ∈ r.items, 0 ≤ l.qty))

/-! ### Concrete fixtures used by counterexamples and witnesses -/

/-- A store with one SKU `X` at quantity 5 and no reservations. -/
def exStore : Store := ⟨[("X", 5)], []⟩

/-- A reservation payload naming SKU `X` twice, 3 units each. -/
def exDupPayload : ReservationRec := ⟨"r1", "o1", [⟨"X", 3⟩, ⟨"X", 3⟩], "reserved"⟩

/-- A reservation payload whose status is not `reserved`. -/
def exOtherStatus : ReservationRec := ⟨"r1", "o1", [⟨"X", 2⟩], "committed"⟩

/-- An ordinary single-line reservation payload. -/
def exResPayload : ReservationRec := ⟨"r2", "o1", [⟨"X", 3⟩], "reserved"⟩

/-- The committed state after `exResPayload` succeeds against `exStore`. -/
def exPostStore : Store := ⟨[("X", 2)], [exResPayload]⟩

/-! ### Claim theorems -/

/-- C1, counterexample: the nonnegativity claim fails as stated.  From the
committed state with SKU `X` at quantity 5, the single committed operation
reserving `[(X,3), (X,3)]` succeeds — every line is validated against the
same pre-transaction quantity 5 — and the committed stored quantity of `X`
afterwards is `-1 < 0`. -/
theorem C1_counterexample :
    lookupA (run exStore [Op.createRes exDupPayload]).inventory "X" = some (-1) := by
  decide

/-- C1, amended: for every sequence of committed operations in which each
reservation-create payload lists every SKU at most once and reservation
payloads carry only nonnegative qtys (the spec's own data model declares
`qty` positive), every stored quantity stays nonnegative in every committed
state, from any well-formed initial state. -/
theorem C1_quantity_nonneg (ops : List Op) (s : Store)
    (hg : ∀ o ∈ ops, goodOp o) (hs : StoreOK s) :
    ∀ e ∈ (run s ops).inventory, 0 ≤ e.2 :=
  (run_pres hg hs).1

/-- Witness for C1: a concrete reserve / release / delete-inventory sequence
satisfying the side conditions keeps the quantity of `X` nonnegative. -/
theorem C1_witness :
    (∀ o ∈ [Op.createRes exResPayload,
            Op.updateRes "r2" ⟨"r2", "o1", [⟨"X", 3⟩], "released"⟩,
            Op.deleteInv "Y"], goodOp o) ∧ StoreOK exStore ∧
    ∀ e ∈ (run exStore [Op.createRes exResPayload,
            Op.updateRes "r2" ⟨"r2", "o1", [⟨"X", 3⟩], "released"⟩,
            Op.deleteInv "Y"]).inventory, 0 ≤ e.2 :=
  ⟨by decide, by decide,
    C1_quantity_nonneg _ _ (by decide) (by decide)⟩

/-- C2, counterexample: a successful `create_reservation` does not always
insert a record with status `reserved` — the record stored is the payload
verbatim, status included.  A payload with status `committed` succeeds
against `exStore` and the stored record's status is `committed`. -/
theorem C2_counterexample :
    createReservation exOtherStatus exStore =
      Except.ok ⟨[("X", 3)], [exOtherStatus]⟩ ∧
    exOtherStatus.status = "committed" := by
  decide

/-- C2, amended: `create_reservation` either decrements every line's SKU by
its qty (relative to the pre-call inventory) and appends exactly the payload
as the one new reservation record (so the record's status is the payload's,
`reserved` only when the payload says so), or fails — `SkuNotFound` on a line
whose SKU is absent, `InsufficientStock` on a line whose pre-call stock is
below its qty, a storage failure when the payload's id already exists —
leaving inventory and reservations unchanged (the transaction rolls back);
validation of all lines against the pre-call inventory precedes any
mutation. -/
theorem C2_create_atomic (p : ReservationRec) (s : Store) :
    (∀ s', createReservation p s = Except.ok s' →
      s' = ⟨decItems p.items s.inventory, s.reservations ++ [p]⟩ ∧
      validateItems p.items s.inventory = Except.ok () ∧
      findRes s.reservations p.id = none ∧
      ∀ k, lookupA s'.inventory k =
        (lookupA s.inventory k).map fun q => q - sumQty p.items k) ∧
    (∀ e, createReservation p s = Except.error e →
      (∃ l ∈ p.items,
        (e = ApiErr.skuNotFound l.sku ∧ lookupA s.inventory l.sku = none) ∨
        ∃ q, e = ApiErr.insufficientStock l.sku ∧
          lookupA s.inventory l.sku = some q ∧ q < l.qty) ∨
      (e = ApiErr.storageFailure ∧ (findRes s.reservations p.id).isSome)) := by
  constructor
  · intro s' h
    obtain ⟨hv, hf, hse⟩ := createReservation_ok_elim h
    refine ⟨hse, hv, hf, ?_⟩
    intro k
    rw [hse]
    dsimp only
    rw [decItems_eq_mapVals, lookupA_mapVals]
  · intro e h
    rcases createReservation_error_elim h with h1 | ⟨h1, _, h3⟩
    · exact Or.inl h1
    · exact Or.inr ⟨h1, h3⟩

/-- Witness for C2: the success branch at a concrete input. -/
theorem C2_witness :
    createReservation exResPayload exStore = Except.ok exPostStore ∧
    (exPostStore = ⟨decItems exResPayload.items exStore.inventory,
        exStore.reservations ++ [exResPayload]⟩ ∧
      validateItems exResPayload.items exStore.inventory = Except.ok () ∧
      findRes exStore.reservations exResPayload.id = none ∧
      ∀ k, lookupA exPostStore.inventory k =
        (lookupA exStore.inventory k).map fun q => q - sumQty exResPayload.items k) :=
  ⟨by decide, (C2_create_atomic exResPayload exStore).1 exPostStore (by decide)⟩

/-- C3: reserve followed by release round-trips the stock.  If a reservation
`p` (status `reserved`) is created successfully from state `s`, and later —
in any state `sMid` whose record for `p.id` is still `p` and whose inventory
agrees with the post-reservation inventory on every involved SKU (no other
operation touched those SKUs) — it is updated with a payload of status
`released`, the update succeeds and every involved SKU's quantity equals its
value in `s`, before the reservation. -/
theorem C3_reserve_release_roundtrip (p p2 : ReservationRec) (s s1 sMid : Store)
    (hok : createReservation p s = Except.ok s1)
    (hstat : p.status = "reserved")
    (hfound : findRes sMid.reservations p.id = some p)
    (hagree : ∀ l ∈ p.items, lookupA sMid.inventory l.sku = lookupA s1.inventory l.sku)
    (hrel : p2.status = "released") (hid : p2.id = p.id) :
    ∃ s2, updateReservation p.id p2 sMid = Except.ok s2 ∧
      ∀ l ∈ p.items, lookupA s2.inventory l.sku = lookupA s.inventory l.sku := by
  obtain ⟨hv, _, hse⟩ := createReservation_ok_elim hok
  have hpres : ∀ x ∈ p.items, (lookupA sMid.inventory x.sku).isSome := by
    intro x hx
    rw [hagree x hx, hse]
    dsimp only
    rw [decItems_eq_mapVals, lookupA_mapVals]
    obtain ⟨q, hq, _⟩ := validateItems_ok_mem hv x hx
    rw [hq]
    rfl
  refine ⟨_, updateReservation_ok_intro hfound hid, ?_⟩
  rw [if_pos ⟨hstat, hrel⟩]
  intro l hl
  dsimp only
  rw [restoreItems_eq_mapVals _ _ hpres, lookupA_mapVals, hagree l hl, hse]
  dsimp only
  rw [decItems_eq_mapVals, lookupA_mapVals]
  obtain ⟨q, hq, _⟩ := validateItems_ok_mem hv l hl
  rw [hq, Option.map_some', Option.map_some']
  congr 1
  ring

/-- Witness for C3: X starts at 10, reserve 4, release immediately. -/
theorem C3_witness :
    createReservation ⟨"r1", "o1", [⟨"X", 4⟩], "reserved"⟩ ⟨[("X", 10)], []⟩ =
      Except.ok ⟨[("X", 6)], [⟨"r1", "o1", [⟨"X", 4⟩], "reserved"⟩]⟩ ∧
    ∃ s2, updateReservation "r1" ⟨"r1", "o1", [], "released"⟩
        ⟨[("X", 6)], [⟨"r1", "o1", [⟨"X", 4⟩], "reserved"⟩]⟩ = Except.ok s2 ∧
      ∀ l ∈ ([⟨"X", 4⟩] : List Line),
        lookupA s2.inventory l.sku = lookupA ([("X", 10)] : List (Sku × Int)) l.sku :=
  ⟨by decide,
    C3_reserve_release_roundtrip ⟨"r1", "o1", [⟨"X", 4⟩], "reserved"⟩
      ⟨"r1", "o1", [], "released"⟩ ⟨[("X", 10)], []⟩
      ⟨[("X", 6)], [⟨"r1", "o1", [⟨"X", 4⟩], "reserved"⟩]⟩
      ⟨[("X", 6)], [⟨"r1", "o1", [⟨"X", 4⟩], "reserved"⟩]⟩
      (by decide) (by decide) (by decide) (by decide) (by decide) (by decide)⟩

/-- C4: `update_reservation` leaves the inventory table untouched for every
previous-status / new-status combination other than `reserved → released`
(including `reserved → committed` and a retried release whose previous status
is already `released`), and only overwrites the reservation row with the
payload — so reapplying a transition never double-credits or double-debits
stock. -/
theorem C4_update_frame (rid : String) (p ex : ReservationRec) (s : Store)
    (hf : findRes s.reservations rid = some ex) (hid : p.id = rid)
    (hnot : ¬(ex.status = "reserved" ∧ p.status = "released")) :
    updateReservation rid p s = Except.ok
      ⟨s.inventory, s.reservations.map fun r => if r.id = rid then p else r⟩ := by
  have h := updateReservation_ok_intro hf hid (s := s)
  rw [if_neg hnot] at h
  exact h

/-- Witness for C4: a retried release (previous status already `released`)
leaves the inventory unchanged. -/
theorem C4_witness :
    findRes [(⟨"r1", "o1", [⟨"X", 4⟩], "released"⟩ : ReservationRec)] "r1" =
      some ⟨"r1", "o1", [⟨"X", 4⟩], "released"⟩ ∧
    updateReservation "r1" ⟨"r1", "o1", [⟨"X", 4⟩], "released"⟩
        ⟨[("X", 6)], [⟨"r1", "o1", [⟨"X", 4⟩], "released"⟩]⟩ =
      Except.ok ⟨[("X", 6)],
        [⟨"r1", "o1", [⟨"X", 4⟩], "released"⟩].map
          fun r => if r.id = "r1" then ⟨"r1", "o1", [⟨"X", 4⟩], "released"⟩ else r⟩ :=
  ⟨by decide,
    C4_update_frame "r1" ⟨"r1", "o1", [⟨"X", 4⟩], "released"⟩
      ⟨"r1", "o1", [⟨"X", 4⟩], "released"⟩
      ⟨[("X", 6)], [⟨"r1", "o1", [⟨"X", 4⟩], "released"⟩]⟩
      (by decide) (by decide) (by decide)⟩

/-- C5: a release (stored status `reserved`, payload status `released`)
restores exactly the stored record's items — per line: recreate an absent SKU
row with quantity = qty, else add qty to the stored quantity — and the result
is the same for every payload item list (the incoming items are never
consulted for the restore). -/
theorem C5_release_restores_stored_items (rid : String) (p ex : ReservationRec)
    (s : Store) (hf : findRes s.reservations rid = some ex) (hid : p.id = rid)
    (hprev : ex.status = "reserved") (hnew : p.status = "released") :
    updateReservation rid p s = Except.ok
      ⟨restoreItems ex.items s.inventory,
       s.reservations.map fun r => if r.id = rid then p else r⟩ ∧
    ∀ p2 : ReservationRec, p2.id = rid → p2.status = "released" →
      ∃ s2, updateReservation rid p2 s = Except.ok s2 ∧
        s2.inventory = restoreItems ex.items s.inventory := by
  constructor
  · have h := updateReservation_ok_intro hf hid (s := s)
    rw [if_pos ⟨hprev, hnew⟩] at h
    exact h
  · intro p2 hid2 hnew2
    have h := updateReservation_ok_intro hf hid2 (s := s)
    rw [if_pos ⟨hprev, hnew2⟩] at h
    exact ⟨_, h, rfl⟩

/-- Witness for C5: the release payload's items differ from the stored ones;
the stored items are what gets restored. -/
theorem C5_witness :
    findRes [(⟨"r1", "o1", [⟨"X", 4⟩], "reserved"⟩ : ReservationRec)] "r1" =
      some ⟨"r1", "o1", [⟨"X", 4⟩], "reserved"⟩ ∧
    (updateReservation "r1" ⟨"r1", "o9", [⟨"Z", 99⟩], "released"⟩
        ⟨[("X", 6)], [⟨"r1", "o1", [⟨"X", 4⟩], "reserved"⟩]⟩ =
      Except.ok ⟨restoreItems [⟨"X", 4⟩] [("X", 6)],
        [⟨"r1", "o1", [⟨"X", 4⟩], "reserved"⟩].map
          fun r => if r.id = "r1" then ⟨"r1", "o9", [⟨"Z", 99⟩], "released"⟩ else r⟩ ∧
      ∀ p2 : ReservationRec, p2.id = "r1" → p2.status = "released" →
        ∃ s2, updateReservation "r1" p2
            ⟨[("X", 6)], [⟨"r1", "o1", [⟨"X", 4⟩], "reserved"⟩]⟩ = Except.ok s2 ∧
          s2.inventory = restoreItems [⟨"X", 4⟩] [("X", 6)]) :=
  ⟨by decide,
    C5_release_restores_stored_items "r1" ⟨"r1", "o9", [⟨"Z", 99⟩], "released"⟩
      ⟨"r1", "o1", [⟨"X", 4⟩], "reserved"⟩
      ⟨[("X", 6)], [⟨"r1", "o1", [⟨"X", 4⟩], "reserved"⟩]⟩
      (by decide) (by decide) (by decide) (by decide)⟩

/-- C6: `delete_reservation` is idempotent and case-split exactly as claimed:
an absent id succeeds changing nothing; a stored `reserved` record restores
its items to stock (the same per-line restore as a release) and is removed;
a stored record of any other status is removed with stock untouched. -/
theorem C6_delete_cases (rid : String) (s : Store) :
    (findRes s.reservations rid = none → deleteReservation rid s = Except.ok s) ∧
    (∀ ex, findRes s.reservations rid = some ex → ex.status = "reserved" →
      deleteReservation rid s = Except.ok
        ⟨restoreItems ex.items s.inventory,
         s.reservations.filter fun r => r.id ≠ rid⟩) ∧
    (∀ ex, findRes s.reservations rid = some ex → ex.status ≠ "reserved" →
      deleteReservation rid s = Except.ok
        ⟨s.inventory, s.reservations.filter fun r => r.id ≠ rid⟩) := by
  refine ⟨deleteReservation_none, ?_, ?_⟩
  · intro ex hf hst
    rw [deleteReservation_some hf, if_pos hst]
  · intro ex hf hst
    rw [deleteReservation_some hf, if_neg hst]

/-- Witness for C6: deleting a stored `reserved` reservation restores its
line to stock and removes the record. -/
theorem C6_witness :
    findRes [(⟨"r1", "o1", [⟨"X", 4⟩], "reserved"⟩ : ReservationRec)] "r1" =
      some ⟨"r1", "o1", [⟨"X", 4⟩], "reserved"⟩ ∧
    deleteReservation "r1" ⟨[("X", 6)], [⟨"r1", "o1", [⟨"X", 4⟩], "reserved"⟩]⟩ =
      Except.ok ⟨restoreItems [⟨"X", 4⟩] [("X", 6)],
        [(⟨"r1", "o1", [⟨"X", 4⟩], "reserved"⟩ : ReservationRec)].filter
          fun r => r.id ≠ "r1"⟩ :=
  ⟨by decide,
    (C6_delete_cases "r1" ⟨[("X", 6)], [⟨"r1", "o1", [⟨"X", 4⟩], "reserved"⟩]⟩).2.1
      ⟨"r1", "o1", [⟨"X", 4⟩], "reserved"⟩ (by decide) (by decide)⟩

/-- Stored order: status `paid`, currency `INR`. -/
def exOrderRow : OrderRow :=
  ⟨"o1", none, none, ⟨"items-json"⟩, ⟨"100.0"⟩, some "INR", "paid", none, none⟩

/-- Update payload containing only `status: shipped`. -/
def exReqOnlyStatus : OrderReq :=
  ⟨none, none, none, none, none, none, some "shipped", none, none⟩

/-- Update payload with the required fields present, setting status `shipped`
and omitting currency. -/
def exReqShip : OrderReq :=
  ⟨some "o1", none, none, some ⟨"items-json"⟩, some ⟨"250.0"⟩, none,
    some "shipped", none, none⟩

/-- C7, counterexample: with the stored order `(status paid, currency INR)`,
the update payload containing only `status: shipped` is rejected by input
validation (`OrderIn` requires `id`, `items`, `total`, `status`), so no
record with status `shipped` results — the claim's example cannot occur. -/
theorem C7_counterexample :
    exOrderRow.status = "paid" ∧ exOrderRow.currency = some "INR" ∧
    exReqOnlyStatus.status = some "shipped" ∧ exReqOnlyStatus.id = none ∧
    updateOrder "o1" exReqOnlyStatus [exOrderRow] =
      Except.error ApiErr.validationError := by
  decide

/-- C7, amended: for every update payload that passes input validation (it
must include `id`, `items`, `total` and `status`; `OrderIn` declares them
required, so a payload containing only `status` is rejected before the
handler runs), the merge-update stores exactly the merge of the existing row
with the present fields: each present field is replaced, each omitted field
keeps its stored value. -/
theorem C7_merge_update (oid : String) (r : OrderReq) (db : List OrderRow)
    (ex : OrderRow) (hid : r.id = some oid) (hit : r.items.isSome)
    (hto : r.total.isSome) (hst : r.status.isSome)
    (hfind : findOrder db oid = some ex) :
    updateOrder oid r db =
      Except.ok (db.map fun o => if o.id = oid then mergeOrder ex r else o) ∧
    (mergeOrder ex r).id = oid ∧
    (∀ v, r.status = some v → (mergeOrder ex r).status = v) ∧
    (∀ v, r.currency = some v → (mergeOrder ex r).currency = v) ∧
    (r.currency = none → (mergeOrder ex r).currency = ex.currency) ∧
    (r.userId = none → (mergeOrder ex r).userId = ex.userId) ∧
    (r.address = none → (mergeOrder ex r).address = ex.address) ∧
    (r.refund_attempt = none →
      (mergeOrder ex r).refund_attempt = ex.refund_attempt) ∧
    (r.payment_refund_status = none →
      (mergeOrder ex r).payment_refund_status = ex.payment_refund_status) := by
  have hmid : (mergeOrder ex r).id = oid := by
    unfold mergeOrder
    dsimp only
    rw [hid]
    rfl
  have hpar : parseOk r = true := by
    unfold parseOk
    rw [hid]
    simp [hit, hto, hst]
  refine ⟨?_, hmid, ?_, ?_, ?_, ?_, ?_, ?_, ?_⟩
  · unfold updateOrder
    rw [hpar, if_pos rfl, hfind]
    dsimp only
    rw [if_neg fun hc => hc.1 hmid]
  · intro v hv
    unfold mergeOrder
    dsimp only
    rw [hv]
    rfl
  · intro v hv
    unfold mergeOrder
    dsimp only
    rw [hv]
    rfl
  · intro hv
    unfold mergeOrder
    dsimp only
    rw [hv]
    rfl
  · intro hv
    unfold mergeOrder
    dsimp only
    rw [hv]
    rfl
  · intro hv
    unfold mergeOrder
    dsimp only
    rw [hv]
    rfl
  · intro hv
    unfold mergeOrder
    dsimp only
    rw [hv]
    rfl
  · intro hv
    unfold mergeOrder
    dsimp only
    rw [hv]
    rfl

/-- Witness for C7: stored `(paid, INR)`, valid payload sets status `shipped`
and omits currency — the stored record becomes `shipped` and keeps `INR`. -/
theorem C7_witness :
    (exReqShip.id = some "o1" ∧ exReqShip.items.isSome ∧ exReqShip.total.isSome ∧
      exReqShip.status.isSome ∧ findOrder [exOrderRow] "o1" = some exOrderRow) ∧
    (updateOrder "o1" exReqShip [exOrderRow] =
      Except.ok ([exOrderRow].map
        fun o => if o.id = "o1" then mergeOrder exOrderRow exReqShip else o) ∧
    (mergeOrder exOrderRow exReqShip).id = "o1" ∧
    (∀ v, exReqShip.status = some v → (mergeOrder exOrderRow exReqShip).status = v) ∧
    (∀ v, exReqShip.currency = some v →
      (mergeOrder exOrderRow exReqShip).currency = v) ∧
    (exReqShip.currency = none →
      (mergeOrder exOrderRow exReqShip).currency = exOrderRow.currency) ∧
    (exReqShip.userId = none →
      (mergeOrder exOrderRow exReqShip).userId = exOrderRow.userId) ∧
    (exReqShip.address = none →
      (mergeOrder exOrderRow exReqShip).address = exOrderRow.address) ∧
    (exReqShip.refund_attempt = none →
      (mergeOrder exOrderRow exReqShip).refund_attempt = exOrderRow.refund_attempt) ∧
    (exReqShip.payment_refund_status = none →
      (mergeOrder exOrderRow exReqShip).payment_refund_status =
        exOrderRow.payment_refund_status)) :=
  ⟨⟨by decide, by decide, by decide, by decide, by decide⟩,
    C7_merge_update "o1" exReqShip [exOrderRow] exOrderRow
      (by decide) (by decide) (by decide) (by decide) (by decide)⟩

theorem validate_single_ok {inv : List (Sku × Int)} {sk : Sku} {q c : Int}
    (h : lookupA inv sk = some c) (hle : q ≤ c) :
    validateItems [⟨sk, q⟩] inv = Except.ok () :=
  validateItems_ok_intro fun l hl => by
    rw [List.mem_singleton] at hl
    subst hl
    exact ⟨c, h, hle⟩

theorem validate_single_insufficient {inv : List (Sku × Int)} {sk : Sku} {q c : Int}
    (h : lookupA inv sk = some c) (hlt : c < q) :
    validateItems [⟨sk, q⟩] inv = Except.error (ApiErr.insufficientStock sk) := by
  rw [validateItems]
  dsimp only
  rw [h]
  dsimp only
  rw [if_pos hlt]

/-- One serialization order for C8: the first reservation of 3 against stock
5 succeeds leaving 2; the second then fails with `InsufficientStock`. -/
theorem reserveTwice_helper (sk : Sku) (pa pb : ReservationRec) (s : Store)
    (ha : pa.items = [⟨sk, 3⟩]) (hb : pb.items = [⟨sk, 3⟩])
    (hq : lookupA s.inventory sk = some 5)
    (hfa : findRes s.reservations pa.id = none) :
    ∃ s1, createReservation pa s = Except.ok s1 ∧
      createReservation pb s1 = Except.error (ApiErr.insufficientStock sk) ∧
      lookupA s1.inventory sk = some 2 := by
  have hva : validateItems pa.items s.inventory = Except.ok () := by
    rw [ha]
    exact validate_single_ok hq (by norm_num)
  have hl1 : lookupA (decItems pa.items s.inventory) sk = some 2 := by
    rw [decItems_eq_mapVals, lookupA_mapVals, hq, ha]
    simp [sumQty]
  refine ⟨_, createReservation_ok_intro hva hfa, ?_, hl1⟩
  have hv2 : validateItems pb.items (decItems pa.items s.inventory) =
      Except.error (ApiErr.insufficientStock sk) := by
    rw [hb]
    exact validate_single_insufficient hl1 (by norm_num)
  unfold createReservation
  dsimp only
  rw [hv2]

/-- C8: two reservation attempts against one SKU of quantity 5, each for 3
units, with fresh distinct ids: in either serialization order (the row lock
on the SKU serializes the two transactions), exactly the first succeeds, the
second fails with `InsufficientStock`, and the committed quantity is 2 — no
oversell and no lost update. -/
theorem C8_no_oversell (sk : Sku) (p1 p2 : ReservationRec) (s : Store)
    (h1 : p1.items = [⟨sk, 3⟩]) (h2 : p2.items = [⟨sk, 3⟩])
    (hq : lookupA s.inventory sk = some 5)
    (hf1 : findRes s.reservations p1.id = none)
    (hf2 : findRes s.reservations p2.id = none) :
    (∃ s1, createReservation p1 s = Except.ok s1 ∧
      createReservation p2 s1 = Except.error (ApiErr.insufficientStock sk) ∧
      lookupA s1.inventory sk = some 2) ∧
    (∃ s1, createReservation p2 s = Except.ok s1 ∧
      createReservation p1 s1 = Except.error (ApiErr.insufficientStock sk) ∧
      lookupA s1.inventory sk = some 2) :=
  ⟨reserveTwice_helper sk p1 p2 s h1 h2 hq hf1,
   reserveTwice_helper sk p2 p1 s h2 h1 hq hf2⟩

/-- Witness for C8 at concrete payloads against `exStore` (X at 5). -/
theorem C8_witness :
    ((⟨"a1", "o1", [⟨"X", 3⟩], "reserved"⟩ : ReservationRec).items = [⟨"X", 3⟩] ∧
      (⟨"a2", "o2", [⟨"X", 3⟩], "reserved"⟩ : ReservationRec).items = [⟨"X", 3⟩] ∧
      lookupA exStore.inventory "X" = some 5 ∧
      findRes exStore.reservations "a1" = none ∧
      findRes exStore.reservations "a2" = none) ∧
    ((∃ s1, createReservation ⟨"a1", "o1", [⟨"X", 3⟩], "reserved"⟩ exStore =
        Except.ok s1 ∧
      createReservation ⟨"a2", "o2", [⟨"X", 3⟩], "reserved"⟩ s1 =
        Except.error (ApiErr.insufficientStock "X") ∧
      lookupA s1.inventory "X" = some 2) ∧
    (∃ s1, createReservation ⟨"a2", "o2", [⟨"X", 3⟩], "reserved"⟩ exStore =
        Except.ok s1 ∧
      createReservation ⟨"a1", "o1", [⟨"X", 3⟩], "reserved"⟩ s1 =
        Except.error (ApiErr.insufficientStock "X") ∧
      lookupA s1.inventory "X" = some 2)) :=
  ⟨⟨by decide, by decide, by decide, by decide, by decide⟩,
    C8_no_oversell "X" ⟨"a1", "o1", [⟨"X", 3⟩], "reserved"⟩
      ⟨"a2", "o2", [⟨"X", 3⟩], "reserved"⟩ exStore
      (by decide) (by decide) (by decide) (by decide) (by decide)⟩

/-- C9: the inventory create and update endpoints can never succeed — their
declared input model `InventoryIn` has only the fields `id`, `orderId`,
`items`, `status`, so `payload.sku` / `payload.quantity` do not resolve and
the handlers fail (AttributeError for POST, rejected UPDATE statement for
PUT) for every payload, persisting no inventory row. -/
theorem C9_inventory_model_mismatch (p : InventoryIn) (k : Sku) (s : Store) :
    p.getAttr "sku" = none ∧ p.getAttr "quantity" = none ∧
    createInventory p s = Except.error ApiErr.attributeError ∧
    updateInventory k p s = Except.error ApiErr.storageFailure := by
  refine ⟨?_, ?_, createInventory_fails p s, updateInventory_fails k p s⟩
  · unfold InventoryIn.getAttr
    rfl
  · unfold InventoryIn.getAttr
    rfl

/-- C10: `create_reservation` does not require positive qtys.  A line with
qty ≤ 0 always passes the availability check `current_qty < qty` when the SKU
row exists with its (nonnegative) stored quantity, and a successful
reservation of a single negative-qty line *increases* that SKU's stock by the
absolute value of the qty. -/
theorem C10_nonpositive_qty_allowed :
    (∀ (inv : List (Sku × Int)) (sk : Sku) (q c : Int), q ≤ 0 →
      lookupA inv sk = some c → 0 ≤ c →
      validateItems [⟨sk, q⟩] inv = Except.ok ()) ∧
    (∀ (s : Store) (p : ReservationRec) (sk : Sku) (q c : Int), q < 0 →
      p.items = [⟨sk, q⟩] → lookupA s.inventory sk = some c → 0 ≤ c →
      findRes s.reservations p.id = none →
      ∃ s', createReservation p s = Except.ok s' ∧
        lookupA s'.inventory sk = some (c + (q.natAbs : Int)) ∧
        c < c + (q.natAbs : Int)) := by
  constructor
  · intro inv sk q c hq hc hc0
    exact validate_single_ok hc (le_trans hq hc0)
  · intro s p sk q c hq hi hc hc0 hf
    have habs : ((q.natAbs : Int)) = -q := Int.ofNat_natAbs_of_nonpos (le_of_lt hq)
    have hv : validateItems p.items s.inventory = Except.ok () := by
      rw [hi]
      exact validate_single_ok hc (by omega)
    refine ⟨_, createReservation_ok_intro hv hf, ?_, by rw [habs]; omega⟩
    dsimp only
    rw [decItems_eq_mapVals, lookupA_mapVals, hc, hi, habs]
    simp [sumQty]
    omega

/-- Witness for C10: reserving `[(X, -4)]` against X at 5 succeeds and raises
the stock to 9. -/
theorem C10_witness :
    (((-4 : Int) < 0 ∧ lookupA exStore.inventory "X" = some 5 ∧ (0 : Int) ≤ 5 ∧
      findRes exStore.reservations "r9" = none) ∧
    ∃ s', createReservation ⟨"r9", "o9", [⟨"X", -4⟩], "reserved"⟩ exStore =
        Except.ok s' ∧
      lookupA s'.inventory "X" = some (5 + ((-4 : Int).natAbs : Int)) ∧
      (5 : Int) < 5 + (((-4 : Int).natAbs : Int))) :=
  ⟨⟨by decide, by decide, by decide, by decide⟩,
    C10_nonpositive_qty_allowed.2 exStore ⟨"r9", "o9", [⟨"X", -4⟩], "reserved"⟩
      "X" (-4) 5 (by decide) (by decide) (by decide) (by decide) (by decide)⟩

end AppDb
